import Mathlib

/-!
Shallow embedding of the core upload-resolution logic of
`google-drive-upload-git-action` (`main.go`), together with theorems that
settle the specification claims against it.

Remote calls (Drive list/create/update), the local filesystem and the
configuration source are external collaborators; they appear here as
explicit parameters or oracle functions, while every decision taken by the
Go code itself is transcribed directly from the source.
-/

namespace DriveUpload

/-- Remote object metadata as used by the program: the Go code requests the
fields `files(name,id,mimeType,parents)` from the Drive list endpoint. -/
structure DriveFile where
  id : String
  name : String
  mimeType : String
  parents : List String
deriving Repr, DecidableEq

/-- The decision taken by `uploadFile`: create a brand-new remote object, or
update (overwrite) the located existing object. -/
inductive UploadDecision where
  | create
  | update (target : DriveFile)
deriving Repr, DecidableEq

/-- Result of the `uploadFile` decision logic: whether the remote
name-search query was issued at all, and which transfer was chosen. -/
structure UploadFileResult where
  searched : Bool
  decision : UploadDecision
deriving Repr, DecidableEq

/-- Transcription of the scan loop in `uploadFile` (main.go lines 269-286).
`cur` is the running value of the Go variable `currentFile`.  For every
returned item whose `Name` equals `name`, `currentFile` is set to that item;
if additionally one of its parents equals `folderId`, the loop breaks. -/
def scanFiles (name folderId : String) : List DriveFile → Option DriveFile → Option DriveFile
  | [], cur => cur
  | i :: rest, cur =>
    if i.name == name then
      if i.parents.contains folderId then some i
      else scanFiles name folderId rest (some i)
    else scanFiles name folderId rest cur

/-- Transcription of `uploadFile` (main.go lines 247-295) as a decision
function.  `searchResults` stands for the list the Drive query
`Q("name='<name>'")` would return; `searched = false` records that the query
is never issued on the non-overwrite path. -/
def uploadFile (searchResults : List DriveFile) (folderId name : String)
    (overwriteFlag : Bool) : UploadFileResult :=
  if !overwriteFlag then ⟨false, .create⟩
  else
    match scanFiles name folderId searchResults none with
    | none => ⟨true, .create⟩
    | some f => ⟨true, .update f⟩

/-- A folder-creation request as built by `createDriveDirectory`
(main.go lines 230-234). -/
structure CreateFolderReq where
  name : String
  mimeType : String
  parents : List String
deriving Repr, DecidableEq

/-- Transcription of the inner loop of `createDriveDirectory` (main.go lines
219-225): scanning one result item's parent list, incrementing
`foundFolders` and assigning `nextFolderId = i.Id` on every parent equal to
`folderId`. -/
def scanParents (folderId id : String) : List String → Nat × String → Nat × String
  | [], acc => acc
  | p :: ps, acc =>
    scanParents folderId id ps (if p == folderId then (acc.1 + 1, id) else acc)

/-- Transcription of the outer loop of `createDriveDirectory` (main.go lines
218-226): folding the parent scan over all returned items.  The accumulator
starts at `(0, "")`, the zero values of `foundFolders` and `nextFolderId`. -/
def scanFolders (folderId : String) : List DriveFile → Nat × String → Nat × String
  | [], acc => acc
  | i :: rest, acc => scanFolders folderId rest (scanParents folderId i.id i.parents acc)

/-- Transcription of `createDriveDirectory` (main.go lines 202-245).
`listing` stands for the result of the Drive query for objects named `name`
with the folder mime type; `newId` is the server-assigned identifier a
create would return.  The result pairs the folder-creation requests issued
(none, or exactly one) with the returned folder identifier. -/
def createDriveDirectory (listing : List DriveFile) (folderId name newId : String) :
    List CreateFolderReq × String :=
  let r := scanFolders folderId listing (0, "")
  if r.1 == 0 then
    ([⟨name, "application/vnd.google-apps.folder", [folderId]⟩], newId)
  else ([], r.2)

/-- Go `path/filepath.Base` on a Unix path (the action runs on Linux, see
the Dockerfile; the path separator is `/` and volume names are empty):
empty path gives `"."`; trailing separators are stripped; the suffix after
the last separator is returned; a path of only separators gives `"/"`. -/
def filepathBase (path : String) : String :=
  if path == "" then "."
  else
    let stripped := (path.toList.reverse.dropWhile (fun c => c == '/')).reverse
    if stripped.isEmpty then "/"
    else ⟨(stripped.reverse.takeWhile (fun c => c != '/')).reverse⟩

/-- Go `strconv.ParseBool`: the exact accepted spellings, `none` standing
for the error return (in which case Go also returns `false` as the value). -/
def parseBool (s : String) : Option Bool :=
  if s == "1" || s == "t" || s == "T" || s == "true" || s == "TRUE" || s == "True" then
    some true
  else if s == "0" || s == "f" || s == "F" || s == "false" || s == "FALSE" || s == "False" then
    some false
  else none

/-- The flag-reading pattern used for `overwrite` (main.go lines 94-101):
empty input logs and disables; otherwise `flag, _ = strconv.ParseBool(s)`
discards the error, so an unparseable value yields `false`. -/
def overwriteFlagOf (s : String) : Bool :=
  if s == "" then false else (parseBool s).getD false

/-- The flag-reading pattern used for `useCompleteSourceFilenameAsName`
(main.go lines 115-122), identical in shape to the overwrite flag. -/
def useCompleteSourceFilenameAsNameFlagOf (s : String) : Bool :=
  if s == "" then false else (parseBool s).getD false

/-- The flag-reading pattern used for `mirrorDirectoryStructure`
(main.go lines 124-131), identical in shape to the overwrite flag. -/
def mirrorDirectoryStructureFlagOf (s : String) : Bool :=
  if s == "" then false else (parseBool s).getD false

/-- Classification of a local path by `os.Lstat` as used in `uploadToDrive`
(main.go lines 38-46): a regular file or a directory. -/
inductive FileKind where
  | regular
  | directory
deriving Repr, DecidableEq

/-- Outcome of the transfer primitive `uploadToDrive` (main.go lines 37-74). -/
inductive UploadToDriveResult where
  | fatalStat
  | fatalOpen
  | fatalRemote
  | skippedDir
  | uploaded (isUpdate : Bool)
deriving Repr, DecidableEq

/-- Whether an `uploadToDrive` outcome corresponds to a non-nil Go error
(the caller turns any such error into a fatal abort of the run). -/
def isError : UploadToDriveResult → Bool
  | .fatalStat => true
  | .fatalOpen => true
  | .fatalRemote => true
  | .skippedDir => false
  | .uploaded _ => false

/-- Whether an `uploadToDrive` outcome actually transferred a payload. -/
def performsUpload : UploadToDriveResult → Bool
  | .uploaded _ => true
  | _ => false

/-- Transcription of `uploadToDrive` (main.go lines 37-74).  `statResult`
stands for the `os.Lstat` answer (`none` = stat error), `openOk` for
`os.Open` succeeding, `remoteOk` for the Drive create/update call
succeeding, and `driveFile` for the located object (`nil` = create path). -/
def uploadToDrive (statResult : Option FileKind) (openOk remoteOk : Bool)
    (driveFile : Option DriveFile) : UploadToDriveResult :=
  match statResult with
  | none => .fatalStat
  | some .directory => .skippedDir
  | some .regular =>
    if !openOk then .fatalOpen
    else if !remoteOk then .fatalRemote
    else .uploaded driveFile.isSome

/-- Resource events performed by `uploadToDrive` on the local file handle. -/
inductive ResourceEvent where
  | statCall
  | openHandle
  | closeHandle
  | remoteCall
deriving Repr, DecidableEq, BEq

/-- The sequence of local-resource events `uploadToDrive` performs
(main.go lines 37-74), path by path; the remote call's success does not
change the handle events, so it is not a parameter.  The function contains
no call to `file.Close`, deferred or otherwise, so no branch emits
`closeHandle`. -/
def uploadToDriveTrace (statResult : Option FileKind) (openOk : Bool) :
    List ResourceEvent :=
  match statResult with
  | none => [.statCall]
  | some .directory => [.statCall]
  | some .regular =>
    if !openOk then [.statCall]
    else [.statCall, .openHandle, .remoteCall]

/-- The configuration the orchestrator loop reads (main.go lines 76-160),
after all inputs have been fetched and the three boolean flags parsed.
`useSourceFilename` is the precomputed `len(files) > 1` (main.go line 162);
`namePfx` models the Go variable `filenamePrefix`. -/
structure Config where
  name : String
  folderId : String
  mimeType : String
  overwriteFlag : Bool
  useCompleteSourceFilenameAsNameFlag : Bool
  mirrorDirectoryStructureFlag : Bool
  namePfx : String
  useSourceFilename : Bool
deriving Repr, DecidableEq

/-- The target-name derivation of the orchestrator (main.go lines 181-186):
start from the configured `name`; the full-path flag wins; otherwise a
multi-file match or an empty configured name selects the base name. -/
def deriveTargetName (cfg : Config) (file : String) : String :=
  if cfg.useCompleteSourceFilenameAsNameFlag then file
  else if cfg.useSourceFilename || cfg.name == "" then filepathBase file
  else cfg.name

/-- The name actually passed to `uploadFile` (main.go lines 192-194): the
derived name with the configured prefix prepended when the prefix is
non-empty.  (The emptiness check of main.go line 188 happens before this.) -/
def finalName (cfg : Config) (file : String) : String :=
  if cfg.namePfx != "" then cfg.namePfx ++ deriveTargetName cfg file
  else deriveTargetName cfg file

/-- One invocation of the upload decision engine recorded by the
orchestrator model: which local file, into which folder, under which name. -/
structure UploadCall where
  file : String
  folderId : String
  targetName : String
deriving Repr, DecidableEq

/-- Outcome of the orchestrator loop: the upload-engine invocations made, in
order, and whether the run ended in a fatal abort. -/
structure RunResult where
  calls : List UploadCall
  fatal : Bool
deriving Repr, DecidableEq

/-- Go `strings.Split` with a single-character separator, on the character
list: splitting the empty input yields one empty group; a separator starts
a new group; any other character is prepended to the current group. -/
def splitOnChar (sep : Char) : List Char → List (List Char)
  | [] => [[]]
  | c :: rest =>
    let r := splitOnChar sep rest
    if c == sep then [] :: r
    else
      match r with
      | [] => [[c]]
      | g :: gs => (c :: g) :: gs

/-- Go `strings.Split(s, string(os.PathSeparator))` on Linux: split on
`'/'`, keeping empty segments, as the mirroring loop does (main.go
line 171). -/
def stringsSplit (s : String) (sep : Char) : List String :=
  (splitOnChar sep s.toList).map (fun g => ⟨g⟩)

/-- Transcription of the mirroring loop (main.go lines 173-178): fold the
directory resolver over the path segments, threading the returned folder
identifier into the next call as its parent.  `resolve` is the
state-passing oracle for `createDriveDirectory` against the remote store
(state type `S`). -/
def mirrorChain {S : Type} (resolve : S → String → String → S × String) :
    S → String → List String → S × String
  | s, folderId, [] => (s, folderId)
  | s, folderId, dir :: dirs =>
    let r := resolve s folderId dir
    mirrorChain resolve r.1 r.2 dirs

/-- The target folder for one file (main.go lines 167-179): the working
folder identifier is first reset to `cfg.folderId` (the saved
`originalFolderId`); when mirroring is enabled the resolver chain is folded
over the segments of `filepath.Dir(file)` split on the path separator,
starting from that root.  `resolve` is the state-passing oracle for
`createDriveDirectory` against the remote store and `dirFn` models
`filepath.Dir`. -/
def targetFolderFor {S : Type} (resolve : S → String → String → S × String)
    (dirFn : String → String) (cfg : Config) (s : S) (file : String) : S × String :=
  if cfg.mirrorDirectoryStructureFlag then
    mirrorChain resolve s cfg.folderId (stringsSplit (dirFn file) '/')
  else (s, cfg.folderId)

/-- Transcription of the per-file orchestrator loop (main.go lines 164-199).
`resolve` models `createDriveDirectory` and `upload` models `uploadFile`
(returning the evolved remote state and whether the call succeeded).  Each
iteration resets the working folder identifier to `cfg.folderId` (the saved
`originalFolderId`), mirrors the directory structure when enabled, derives
the target name, aborts fatally when that name is empty, and otherwise
invokes the upload engine; an engine failure aborts the run. -/
def processFiles {S : Type} (resolve : S → String → String → S × String)
    (upload : S → UploadCall → S × Bool) (dirFn : String → String)
    (cfg : Config) : S → List String → RunResult
  | _, [] => ⟨[], false⟩
  | s, file :: rest =>
    let sf := targetFolderFor resolve dirFn cfg s file
    let targetName := deriveTargetName cfg file
    if targetName == "" then ⟨[], true⟩
    else
      let call : UploadCall := ⟨file, sf.2, finalName cfg file⟩
      let u := upload sf.1 call
      if u.2 then
        let r := processFiles resolve upload dirFn cfg u.1 rest
        ⟨call :: r.calls, r.fatal⟩
      else ⟨[call], true⟩

/-- The orchestrator entry (main.go lines 162-166): `useSourceFilename` is
set from the matched file list before the loop runs. -/
def runMain {S : Type} (resolve : S → String → String → S × String)
    (upload : S → UploadCall → S × Bool) (dirFn : String → String)
    (cfg : Config) (files : List String) (s : S) : RunResult :=
  processFiles resolve upload dirFn
    { cfg with useSourceFilename := decide (files.length > 1) } s files

/-- The upload oracle induced by the transfer primitive over a local
filesystem view `fs` (stat answers per path), with open and remote calls
succeeding: the orchestrator treats the call as failed exactly when
`uploadToDrive` returns an error. -/
def uploadViaDrive {S : Type} (fs : String → Option FileKind) (s : S)
    (c : UploadCall) : S × Bool :=
  (s, !(isError (uploadToDrive (fs c.file) true true none)))

/-- A Drive update request as built by the overwrite path of
`uploadToDrive` (main.go lines 53-58): `Files.Update(driveFile.Id, f)` with
`f` carrying the new name and mime type, plus `AddParents(folderId)`; no
`RemoveParents` is ever set. -/
structure UpdateRequest where
  fileId : String
  name : String
  mimeType : String
  addParents : List String
  removeParents : List String
deriving Repr, DecidableEq

/-- The exact update request the code builds for a located object. -/
def updateRequestFor (driveFile : DriveFile) (folderId name mimeType : String) :
    UpdateRequest :=
  ⟨driveFile.id, name, mimeType, [folderId], []⟩

/-- A remote object as stored by the service, content included. -/
structure StoredFile where
  id : String
  name : String
  mimeType : String
  content : List Nat
  parents : List String
deriving Repr, DecidableEq

/-- Modelled from the spec: the remote store's update operation ("update
object's payload + metadata and parent attachment") — the Drive API itself
is not part of this repository.  Applying an update request to the
addressed object replaces its content and its name and mime-type metadata,
removes the parents listed in `removeParents`, and adds the parents listed
in `addParents` that are not already present; other objects are untouched. -/
def applyUpdate (f : StoredFile) (req : UpdateRequest) (newContent : List Nat) :
    StoredFile :=
  if f.id == req.fileId then
    { f with
      name := req.name
      mimeType := req.mimeType
      content := newContent
      parents :=
        (f.parents.filter (fun p => !(req.removeParents.contains p))) ++
          req.addParents.filter (fun p => !(f.parents.contains p)) }
  else f

/-! ## Helper lemmas -/

/-- String concatenation is empty only when both halves are. -/
theorem string_append_eq_empty {a b : String} (h : a ++ b = "") : a = "" ∧ b = "" := by
  have hd : a.data ++ b.data = [] := by
    have := congrArg String.data h
    rwa [String.data_append] at this
  rcases List.append_eq_nil.mp hd with ⟨ha, hb⟩
  exact ⟨String.ext ha, String.ext hb⟩

/-- A list contains an element (in the `Bool` sense) iff it is a member. -/
theorem contains_iff_mem {α : Type} [BEq α] [LawfulBEq α] (l : List α) (a : α) :
    l.contains a = true ↔ a ∈ l := by
  simp [List.contains, List.elem_iff]

/-- Characterization of the `uploadFile` scan loop: it returns the first
result matching on both name and parent containment when one exists;
otherwise the last result matching on name alone; otherwise the incoming
`currentFile` value. -/
theorem scanFiles_eq (name folderId : String) :
    ∀ (l : List DriveFile) (cur : Option DriveFile),
    scanFiles name folderId l cur =
      match l.find? (fun i => i.name == name && i.parents.contains folderId) with
      | some i => some i
      | none =>
        match (l.filter (fun i => i.name == name)).getLast? with
        | some i => some i
        | none => cur := by
  intro l
  induction l with
  | nil => intro cur; rfl
  | cons i rest ih =>
    intro cur
    by_cases hn : i.name = name
    · by_cases hp : folderId ∈ i.parents
      · have hc : i.parents.contains folderId = true := (contains_iff_mem _ _).mpr hp
        rw [scanFiles, if_pos (show (i.name == name) = true by simp [hn]), if_pos hc]
        rw [List.find?_cons_of_pos _ (by simp [hn, hp])]
      · have hc : i.parents.contains folderId = false := by
          cases habs : i.parents.contains folderId
          · rfl
          · exact absurd ((contains_iff_mem _ _).mp habs) hp
        rw [scanFiles, if_pos (show (i.name == name) = true by simp [hn]),
          if_neg (by simp [hp]), ih (some i)]
        rw [List.find?_cons_of_neg _ (by simp [hn, hp])]
        rw [List.filter_cons_of_pos (by simp [hn]), List.getLast?_cons]
        cases hf : rest.find? (fun j => j.name == name && j.parents.contains folderId) with
        | some j => simp [hf]
        | none =>
          cases hl : (rest.filter (fun j => j.name == name)).getLast? with
          | some j => simp [hf, hl]
          | none => simp [hf, hl]
    · rw [scanFiles, if_neg (by simp [hn]), ih cur]
      rw [List.find?_cons_of_neg _ (by simp [hn]), List.filter_cons_of_neg (by simp [hn])]

/-- The last element of a list is a member of it. -/
theorem mem_of_getLast?_eq_some {α : Type} {l : List α} {a : α}
    (h : l.getLast? = some a) : a ∈ l := by
  rcases List.mem_getLast?_eq_getLast (show a ∈ l.getLast? by rw [h]; rfl) with ⟨hne, hEq⟩
  rw [hEq]
  exact List.getLast_mem hne

/-- Characterization of the parent scan of `createDriveDirectory`: it adds
the number of occurrences of `folderId` among the parents to the counter
and, when there is at least one occurrence, overwrites the candidate
identifier with this item's id. -/
theorem scanParents_eq (folderId id : String) :
    ∀ (ps : List String) (acc : Nat × String),
    scanParents folderId id ps acc =
      if folderId ∈ ps then (acc.1 + ps.count folderId, id) else acc := by
  intro ps
  induction ps with
  | nil => intro acc; simp [scanParents]
  | cons p rest ih =>
    intro acc
    by_cases hp : p = folderId
    · subst hp
      rw [scanParents, if_pos (by simp), ih]
      by_cases hr : p ∈ rest
      · rw [if_pos hr, if_pos (List.mem_cons_self _ _), List.count_cons_self]
        exact Prod.ext (by omega) rfl
      · rw [if_neg hr, if_pos (List.mem_cons_self _ _), List.count_cons_self,
          List.count_eq_zero.mpr hr]
    · rw [scanParents, if_neg (by simp [hp]), ih]
      by_cases hr : folderId ∈ rest
      · rw [if_pos hr, if_pos (List.mem_cons_of_mem _ hr),
          List.count_cons_of_ne (fun habs => hp habs.symm)]
      · rw [if_neg hr, if_neg (by
          intro habs
          rcases List.mem_cons.mp habs with h1 | h2
          · exact hp h1.symm
          · exact hr h2)]

/-- Characterization of the result scan of `createDriveDirectory`: the
counter grows by the total number of matching parent occurrences, and the
candidate identifier ends up as the id of the last listed item whose
parents contain `folderId` (or stays untouched when there is none). -/
theorem scanFolders_eq (folderId : String) :
    ∀ (l : List DriveFile) (acc : Nat × String),
    scanFolders folderId l acc =
      (acc.1 + (l.map (fun i => i.parents.count folderId)).sum,
       match (l.filter (fun i => i.parents.contains folderId)).getLast? with
       | some i => i.id
       | none => acc.2) := by
  intro l
  induction l with
  | nil => intro acc; simp [scanFolders]
  | cons i rest ih =>
    intro acc
    rw [scanFolders, scanParents_eq, ih]
    by_cases hp : folderId ∈ i.parents
    · have hc : i.parents.contains folderId = true := (contains_iff_mem _ _).mpr hp
      rw [if_pos hp, List.filter_cons_of_pos (by simp [hp]), List.getLast?_cons]
      cases hl : (rest.filter (fun j => j.parents.contains folderId)).getLast? with
      | some j => simp [hl, List.map_cons, List.sum_cons, Nat.add_assoc]
      | none => simp [hl, List.map_cons, List.sum_cons, Nat.add_assoc]
    · have hc : i.parents.contains folderId = false := by
        cases habs : i.parents.contains folderId
        · rfl
        · exact absurd ((contains_iff_mem _ _).mp habs) hp
      rw [if_neg hp, List.filter_cons_of_neg (by simp [hp]), List.map_cons, List.sum_cons,
        List.count_eq_zero.mpr hp]
      simp

/-! ## Claim theorems -/

/-- C1 (counterexample): with overwrite enabled and the search returning a
single object whose name equals the target but whose only parent is a
different folder, the code does not create — it updates that object.  The
`all` conjunct certifies that no returned object has the target folder
`"target"` in its parent set, which is exactly the claim's hypothesis, and
the final conjunct certifies the decision is not `create`. -/
theorem overwrite_name_match_other_parent_updates :
    (uploadFile [⟨"X", "doc", "text/plain", ["other"]⟩] "target" "doc" true).decision =
      UploadDecision.update ⟨"X", "doc", "text/plain", ["other"]⟩ ∧
    ([⟨"X", "doc", "text/plain", ["other"]⟩] : List DriveFile).all
      (fun i => !(i.parents.contains "target")) = true ∧
    decide ((uploadFile [⟨"X", "doc", "text/plain", ["other"]⟩] "target" "doc" true).decision
      = UploadDecision.create) = false := by
  refine ⟨rfl, rfl, by decide⟩

/-- C1 (amended): with overwrite enabled, `uploadFile` updates the first
returned object matching on both name and parent containment when one
exists; failing that, it updates the last returned object whose name
matches (even when that object is attached only to other folders); only
when no returned object's name matches does it create a new object.  The
search is always issued on this path. -/
theorem uploadFile_overwrite_decision (results : List DriveFile) (folderId name : String) :
    uploadFile results folderId name true =
      match results.find? (fun i => i.name == name && i.parents.contains folderId) with
      | some i => ⟨true, UploadDecision.update i⟩
      | none =>
        match (results.filter (fun i => i.name == name)).getLast? with
        | some i => ⟨true, UploadDecision.update i⟩
        | none => ⟨true, UploadDecision.create⟩ := by
  rw [uploadFile]
  rw [if_neg (by simp)]
  rw [scanFiles_eq]
  cases hf : results.find? (fun i => i.name == name && i.parents.contains folderId) with
  | some j => simp
  | none =>
    cases hl : (results.filter (fun i => i.name == name)).getLast? with
    | some j => simp [hl]
    | none => simp [hl]

/-- C2 (counterexample): with two folders both named like the segment and
both contained in parent `"P"`, the resolver returns the identifier of the
*last* match `"B"`, not of the first match `"A"` (which is the head of the
matching sublist), refuting the first-match part of the claim. -/
theorem createDriveDirectory_duplicate_returns_last :
    (([⟨"A", "seg", "application/vnd.google-apps.folder", ["P"]⟩,
       ⟨"B", "seg", "application/vnd.google-apps.folder", ["P"]⟩] : List DriveFile).filter
        (fun i => i.parents.contains "P")).head? =
      some ⟨"A", "seg", "application/vnd.google-apps.folder", ["P"]⟩ ∧
    createDriveDirectory
      [⟨"A", "seg", "application/vnd.google-apps.folder", ["P"]⟩,
       ⟨"B", "seg", "application/vnd.google-apps.folder", ["P"]⟩] "P" "seg" "NEW" =
      ([], "B") ∧
    decide ((createDriveDirectory
      [⟨"A", "seg", "application/vnd.google-apps.folder", ["P"]⟩,
       ⟨"B", "seg", "application/vnd.google-apps.folder", ["P"]⟩] "P" "seg" "NEW").2
      = "A") = false := by
  refine ⟨by decide, by decide, by decide⟩

/-- C2 (amended): the resolver returns the identifier of the *last* listed
folder whose parent set contains `parentId` and issues no create when at
least one such folder exists; when none exists it issues exactly one create
request carrying the segment name, the folder mime type and the single
parent `parentId`, and returns the server-assigned new identifier. -/
theorem createDriveDirectory_characterization (listing : List DriveFile)
    (folderId name newId : String) :
    createDriveDirectory listing folderId name newId =
      match (listing.filter (fun i => i.parents.contains folderId)).getLast? with
      | some i => ([], i.id)
      | none => ([⟨name, "application/vnd.google-apps.folder", [folderId]⟩], newId) := by
  unfold createDriveDirectory
  rw [scanFolders_eq]
  cases hl : (listing.filter (fun i => i.parents.contains folderId)).getLast? with
  | none =>
    have hfil : listing.filter (fun i => i.parents.contains folderId) = [] :=
      List.getLast?_eq_none_iff.mp hl
    have hsum : (listing.map (fun i => i.parents.count folderId)).sum = 0 := by
      apply List.sum_eq_zero_iff.mpr
      intro x hx
      rcases List.mem_map.mp hx with ⟨i, hi, hxi⟩
      by_cases hmem : folderId ∈ i.parents
      · have : i ∈ listing.filter (fun j => j.parents.contains folderId) :=
          List.mem_filter.mpr ⟨hi, (contains_iff_mem _ _).mpr hmem⟩
        rw [hfil] at this
        exact absurd this (List.not_mem_nil i)
      · rw [← hxi]
        exact List.count_eq_zero.mpr hmem
    simp [hl, hsum]
  | some j =>
    have hjmem : j ∈ listing.filter (fun i => i.parents.contains folderId) :=
      mem_of_getLast?_eq_some hl
    rcases List.mem_filter.mp hjmem with ⟨hjl, hjc⟩
    have hcount : 0 < j.parents.count folderId :=
      List.count_pos_iff.mpr ((contains_iff_mem _ _).mp hjc)
    have hsum : (listing.map (fun i => i.parents.count folderId)).sum ≠ 0 := by
      intro habs
      have := List.sum_eq_zero_iff.mp habs (j.parents.count folderId)
        (List.mem_map.mpr ⟨j, hjl, rfl⟩)
      omega
    simp [hl, hsum]

/-- C5: with the overwrite flag false, `uploadFile` issues no prior search
and decides to create a new remote object, whatever the remote store holds
(in particular even when an object with the same name already exists in the
target folder, since the decision ignores `searchResults` entirely). -/
theorem uploadFile_no_overwrite_creates_without_search
    (searchResults : List DriveFile) (folderId name : String) :
    uploadFile searchResults folderId name false =
      ⟨false, UploadDecision.create⟩ := rfl

/-- C9: on no execution path of `uploadToDrive` is the local file handle
closed — the trace never contains a `closeHandle` event — although on the
successful regular-file path a handle is opened (exactly once).  This
refutes the claim that the handle is released on every exit path once the
transfer returns: the code has no `Close` call at all. -/
theorem uploadToDrive_trace_never_closes_handle :
    (∀ (statResult : Option FileKind) (openOk : Bool),
      (uploadToDriveTrace statResult openOk).count ResourceEvent.closeHandle = 0) ∧
    (uploadToDriveTrace (some FileKind.regular) true).count ResourceEvent.openHandle = 1 := by
  constructor
  · intro statResult openOk
    cases statResult with
    | none => rfl
    | some k =>
      cases k with
      | regular => cases openOk <;> rfl
      | directory => rfl
  · rfl

/-- C6: the update request built by the overwrite path carries `AddParents
= [folderId]` and no `RemoveParents`, so applying it to the located object
replaces its name, mime type and content, puts `folderId` into its parent
set, and keeps every previously existing parent. -/
theorem applyUpdate_replaces_metadata_and_keeps_parents
    (f : StoredFile) (df : DriveFile) (folderId name mimeType : String)
    (content : List Nat) (hid : f.id = df.id) :
    (applyUpdate f (updateRequestFor df folderId name mimeType) content).name = name ∧
    (applyUpdate f (updateRequestFor df folderId name mimeType) content).mimeType = mimeType ∧
    (applyUpdate f (updateRequestFor df folderId name mimeType) content).content = content ∧
    (applyUpdate f (updateRequestFor df folderId name mimeType) content).id = f.id ∧
    folderId ∈ (applyUpdate f (updateRequestFor df folderId name mimeType) content).parents ∧
    ∀ p ∈ f.parents, p ∈ (applyUpdate f (updateRequestFor df folderId name mimeType) content).parents := by
  have hcond : (f.id == df.id) = true := by simp [hid]
  rw [applyUpdate, updateRequestFor]
  simp only [hcond, if_pos]
  refine ⟨by trivial, by trivial, by trivial, by trivial, ?_, ?_⟩
  · by_cases hmem : folderId ∈ f.parents
    · exact List.mem_append_left _ (List.mem_filter.mpr ⟨hmem, by simp⟩)
    · refine List.mem_append_right _ ?_
      refine List.mem_filter.mpr ⟨List.mem_singleton_self _, ?_⟩
      simp only [Bool.not_eq_true']
      cases habs : f.parents.contains folderId
      · rfl
      · exact absurd ((contains_iff_mem _ _).mp habs) hmem
  · intro p hp
    exact List.mem_append_left _ (List.mem_filter.mpr ⟨hp, by simp⟩)

/-- C6 witness: evaluating the update at a concrete stored object attached
to folder `"other"`: the result holds name, mime type, content, identifier,
and both `"dst"` and the pre-existing parent `"other"`. -/
theorem applyUpdate_replaces_metadata_witness :
    (applyUpdate ⟨"X", "old", "text/old", [7], ["other"]⟩
        (updateRequestFor ⟨"X", "old", "text/old", ["other"]⟩ "dst" "new" "text/new") [9]).name
      = "new" ∧
    "dst" ∈ (applyUpdate ⟨"X", "old", "text/old", [7], ["other"]⟩
        (updateRequestFor ⟨"X", "old", "text/old", ["other"]⟩ "dst" "new" "text/new") [9]).parents ∧
    "other" ∈ (applyUpdate ⟨"X", "old", "text/old", [7], ["other"]⟩
        (updateRequestFor ⟨"X", "old", "text/old", ["other"]⟩ "dst" "new" "text/new") [9]).parents := by
  have h := applyUpdate_replaces_metadata_and_keeps_parents
    ⟨"X", "old", "text/old", [7], ["other"]⟩ ⟨"X", "old", "text/old", ["other"]⟩
    "dst" "new" "text/new" [9] rfl
  exact ⟨h.1, h.2.2.2.2.1, h.2.2.2.2.2 "other" (List.mem_singleton_self _)⟩

/-- C10: a non-empty flag input that `strconv.ParseBool` rejects makes all
three boolean flags false with no error, and the run is then
indistinguishable from a run with the flag disabled (shown here for the
overwrite flag feeding `uploadFile`). -/
theorem unparseable_flag_treated_as_false (s : String)
    (hne : s ≠ "") (hbad : parseBool s = none) :
    overwriteFlagOf s = false ∧
    useCompleteSourceFilenameAsNameFlagOf s = false ∧
    mirrorDirectoryStructureFlagOf s = false ∧
    ∀ (searchResults : List DriveFile) (folderId name : String),
      uploadFile searchResults folderId name (overwriteFlagOf s) =
        uploadFile searchResults folderId name false := by
  have h1 : overwriteFlagOf s = false := by
    rw [overwriteFlagOf, if_neg (by simp [hne]), hbad]
    rfl
  refine ⟨h1, ?_, ?_, ?_⟩
  · rw [useCompleteSourceFilenameAsNameFlagOf, if_neg (by simp [hne]), hbad]
    rfl
  · rw [mirrorDirectoryStructureFlagOf, if_neg (by simp [hne]), hbad]
    rfl
  · intro searchResults folderId name
    rw [h1]

/-- C10 witness: the concrete unparseable input `"yes"` (a value users
plausibly write) is non-empty, rejected by `parseBool`, and yields a
disabled overwrite flag. -/
theorem unparseable_flag_witness :
    overwriteFlagOf "yes" = false ∧ mirrorDirectoryStructureFlagOf "yes" = false :=
  ⟨(unparseable_flag_treated_as_false "yes" (by decide) (by decide)).1,
   (unparseable_flag_treated_as_false "yes" (by decide) (by decide)).2.2.1⟩

/-- C3: target-name precedence for a file under the configuration the
orchestrator builds (with `useSourceFilename` precomputed from the matched
list): the full-path flag wins outright; otherwise more than one match, or
an unconfigured name, selects the file's base name; otherwise the
configured name is used. -/
theorem derive_target_name_precedence (files : List String) (cfg : Config) (f : String) :
    (cfg.useCompleteSourceFilenameAsNameFlag = true →
      deriveTargetName { cfg with useSourceFilename := decide (files.length > 1) } f = f) ∧
    (cfg.useCompleteSourceFilenameAsNameFlag = false → (1 < files.length ∨ cfg.name = "") →
      deriveTargetName { cfg with useSourceFilename := decide (files.length > 1) } f
        = filepathBase f) ∧
    (cfg.useCompleteSourceFilenameAsNameFlag = false → files.length ≤ 1 → cfg.name ≠ "" →
      deriveTargetName { cfg with useSourceFilename := decide (files.length > 1) } f
        = cfg.name) := by
  refine ⟨?_, ?_, ?_⟩
  · intro hflag
    rw [deriveTargetName, if_pos hflag]
  · intro hflag hmulti
    rw [deriveTargetName, if_neg (by simp [hflag])]
    rcases hmulti with hlen | hname
    · rw [if_pos (by simp [hlen])]
    · rw [if_pos (by simp [hname])]
  · intro hflag hlen hname
    rw [deriveTargetName, if_neg (by simp [hflag]), if_neg (by simp [hname]; omega)]

/-- C3 witness: two matched files force the base name even though a name is
configured; evaluated at `"p/q.txt"` the derived name is `"q.txt"`. -/
theorem derive_target_name_precedence_witness :
    deriveTargetName
      { name := "configured", folderId := "root", mimeType := "", overwriteFlag := false,
        useCompleteSourceFilenameAsNameFlag := false, mirrorDirectoryStructureFlag := false,
        namePfx := "", useSourceFilename := decide ((["a", "b"] : List String).length > 1) }
      "p/q.txt" = "q.txt" := by
  have h := (derive_target_name_precedence ["a", "b"]
    { name := "configured", folderId := "root", mimeType := "", overwriteFlag := false,
      useCompleteSourceFilenameAsNameFlag := false, mirrorDirectoryStructureFlag := false,
      namePfx := "", useSourceFilename := false } "p/q.txt").2.1 rfl (Or.inl (by decide))
  exact h.trans (by decide)

/-- C4: with directory mirroring enabled, processing a file starts from the
originally configured root folder identifier `cfg.folderId` — whatever
state the previous iterations left behind — and folds the resolver over the
file's directory segments, each invocation's parent being the previous
invocation's result (first two conjuncts), the chain starting at the root
(third conjunct); the final identifier is the folder of that file's upload
call and the remaining files are processed by the same loop, which resets
to the root again (last conjunct). -/
theorem processFiles_resets_root_and_folds_segments {S : Type}
    (resolve : S → String → String → S × String) (upload : S → UploadCall → S × Bool)
    (dirFn : String → String) (cfg : Config) (s : S) (f : String) (rest : List String)
    (hm : cfg.mirrorDirectoryStructureFlag = true) :
    (∀ (s2 : S) (fid d : String) (ds : List String),
      mirrorChain resolve s2 fid (d :: ds) =
        mirrorChain resolve (resolve s2 fid d).1 (resolve s2 fid d).2 ds) ∧
    (∀ (s2 : S) (fid : String), mirrorChain resolve s2 fid [] = (s2, fid)) ∧
    (∀ (s2 : S) (file : String),
      targetFolderFor resolve dirFn cfg s2 file =
        mirrorChain resolve s2 cfg.folderId (stringsSplit (dirFn file) '/')) ∧
    processFiles resolve upload dirFn cfg s (f :: rest) =
      (let sf := targetFolderFor resolve dirFn cfg s f
       if deriveTargetName cfg f == "" then ⟨[], true⟩
       else
         let call : UploadCall := ⟨f, sf.2, finalName cfg f⟩
         let u := upload sf.1 call
         if u.2 then
           let r := processFiles resolve upload dirFn cfg u.1 rest
           ⟨call :: r.calls, r.fatal⟩
         else ⟨[call], true⟩) := by
  refine ⟨fun s2 fid d ds => rfl, fun s2 fid => rfl, ?_, rfl⟩
  intro s2 file
  rw [targetFolderFor, if_pos hm]

/-- C4 witness: a concrete run with mirroring on — the resolver appends the
segment to the parent, so the upload call's folder exhibits the root-first
left fold `root/a/b` for a file whose directory is `a/b`. -/
theorem processFiles_resets_root_witness :
    processFiles (S := Unit) (fun s p d => (s, p ++ "/" ++ d)) (fun s _ => (s, true))
      (fun _ => "a/b")
      ⟨"nm", "root", "", false, false, true, "", false⟩ () ["a/b/f.txt"] =
      ⟨[⟨"a/b/f.txt", "root/a/b", "nm"⟩], false⟩ := by
  have h := (processFiles_resets_root_and_folds_segments (S := Unit)
    (fun s p d => (s, p ++ "/" ++ d)) (fun s _ => (s, true)) (fun _ => "a/b")
    ⟨"nm", "root", "", false, false, true, "", false⟩ () "a/b/f.txt" [] rfl).2.2.2
  exact h.trans (by decide)

/-- C7: if some file's final derived target name (precedence rules plus
prefix) is empty, the run is fatal and the upload engine is invoked only for
files strictly before it — never for that file or any later one, whatever
the remote state and oracles do.  (The code checks emptiness before
prepending the prefix, but a prefixed name can only be empty when the
prefix is empty too, so the check fires exactly when the final name is
empty.) -/
theorem empty_final_name_aborts_run {S : Type}
    (resolve : S → String → String → S × String) (upload : S → UploadCall → S × Bool)
    (dirFn : String → String) (cfg : Config) (f : String)
    (h : finalName cfg f = "") :
    ∀ (pre rest : List String) (s : S),
      (processFiles resolve upload dirFn cfg s (pre ++ f :: rest)).fatal = true ∧
      ∀ c ∈ (processFiles resolve upload dirFn cfg s (pre ++ f :: rest)).calls,
        c.file ∈ pre := by
  have hd : deriveTargetName cfg f = "" := by
    rw [finalName] at h
    by_cases hp : (cfg.namePfx != "") = true
    · rw [if_pos hp] at h
      exact (string_append_eq_empty h).2
    · rwa [if_neg hp] at h
  intro pre
  induction pre with
  | nil =>
    intro rest s
    simp [processFiles, hd]
  | cons p ps ih =>
    intro rest s
    rw [List.cons_append]
    simp only [processFiles]
    by_cases hp : deriveTargetName cfg p = ""
    · simp [hp]
    · have hp2 : (deriveTargetName cfg p == "") = false := by simp [hp]
      simp only [hp2, Bool.false_eq_true, if_false]
      cases hu : (upload (targetFolderFor resolve dirFn cfg s p).1
          ⟨p, (targetFolderFor resolve dirFn cfg s p).2, finalName cfg p⟩).2 with
      | false =>
        simp [hu]
      | true =>
        have h2 := ih rest (upload (targetFolderFor resolve dirFn cfg s p).1
          ⟨p, (targetFolderFor resolve dirFn cfg s p).2, finalName cfg p⟩).1
        simp only [hu, if_true]
        constructor
        · exact h2.1
        · intro c hc
          rcases List.mem_cons.mp hc with hc1 | hc2
          · rw [hc1]
            exact List.mem_cons_self _ _
          · exact List.mem_cons_of_mem _ (h2.2 c hc2)

/-- C7 witness: with the full-path flag set and no prefix, the matched path
`""` derives the empty final name, so a batch consisting of just that file
aborts fatally before any upload call. -/
theorem empty_final_name_aborts_run_witness :
    (processFiles (S := Unit) (fun s p _ => (s, p)) (fun s _ => (s, true)) (fun _ => ".")
      ⟨"", "root", "", false, true, false, "", false⟩ () [""]).fatal = true ∧
    (processFiles (S := Unit) (fun s p _ => (s, p)) (fun s _ => (s, true)) (fun _ => ".")
      ⟨"", "root", "", false, true, false, "", false⟩ () [""]).calls = [] := by
  have h := empty_final_name_aborts_run (S := Unit) (fun s p _ => (s, p))
    (fun s _ => (s, true)) (fun _ => ".")
    ⟨"", "root", "", false, true, false, "", false⟩ "" (by decide) [] [] ()
  simp only [List.nil_append] at h
  refine ⟨h.1, ?_⟩
  cases hc : (processFiles (S := Unit) (fun s p _ => (s, p)) (fun s _ => (s, true))
      (fun _ => ".") ⟨"", "root", "", false, true, false, "", false⟩ () [""]).calls with
  | nil => rfl
  | cons c cs =>
    have := h.2 c (by rw [hc]; exact List.mem_cons_self _ _)
    exact absurd this (List.not_mem_nil c.file)

/-- C8: when the stat of a matched path reports a directory, the transfer
primitive answers `skippedDir` — a success, not an error, with no payload
transferred — and the orchestrator (here with mirroring off, driving the
upload oracle induced by the transfer primitive) records the engine
invocation and carries on with the remaining files exactly as if the upload
had succeeded. -/
theorem directory_skipped_processing_continues {S : Type}
    (resolve : S → String → String → S × String) (dirFn : String → String)
    (fs : String → Option FileKind) (cfg : Config) (s : S)
    (f : String) (rest : List String)
    (hm : cfg.mirrorDirectoryStructureFlag = false)
    (hdir : fs f = some FileKind.directory)
    (hname : deriveTargetName cfg f ≠ "") :
    uploadToDrive (fs f) true true none = UploadToDriveResult.skippedDir ∧
    performsUpload (uploadToDrive (fs f) true true none) = false ∧
    isError (uploadToDrive (fs f) true true none) = false ∧
    processFiles resolve (uploadViaDrive fs) dirFn cfg s (f :: rest) =
      ⟨⟨f, cfg.folderId, finalName cfg f⟩ ::
        (processFiles resolve (uploadViaDrive fs) dirFn cfg s rest).calls,
       (processFiles resolve (uploadViaDrive fs) dirFn cfg s rest).fatal⟩ := by
  have h1 : uploadToDrive (fs f) true true none = UploadToDriveResult.skippedDir := by
    rw [hdir]
    rfl
  refine ⟨h1, by rw [h1]; rfl, by rw [h1]; rfl, ?_⟩
  have htf : targetFolderFor resolve dirFn cfg s f = (s, cfg.folderId) := by
    rw [targetFolderFor, if_neg (by simp [hm])]
  have hp2 : (deriveTargetName cfg f == "") = false := by simp [hname]
  have hup : uploadViaDrive fs s (⟨f, cfg.folderId, finalName cfg f⟩ : UploadCall) =
      (s, true) := by
    rw [uploadViaDrive, h1]
    rfl
  simp only [processFiles, htf, hp2, Bool.false_eq_true, if_false, hup, if_true]

/-- C8 witness: a one-directory batch followed by a regular file — the
directory yields a success-shaped skip and the second file is still
processed (two engine invocations, no fatal abort). -/
theorem directory_skipped_witness :
    uploadToDrive (some FileKind.directory) true true none =
      UploadToDriveResult.skippedDir ∧
    processFiles (S := Unit) (fun s p _ => (s, p))
      (uploadViaDrive (fun p => if p == "d" then some FileKind.directory
        else some FileKind.regular))
      (fun _ => ".") ⟨"nm", "root", "", false, false, false, "", false⟩ () ["d", "g.txt"] =
      ⟨[⟨"d", "root", "nm"⟩, ⟨"g.txt", "root", "nm"⟩], false⟩ := by
  have h := directory_skipped_processing_continues (S := Unit) (fun s p _ => (s, p))
    (fun _ => ".")
    (fun p => if p == "d" then some FileKind.directory else some FileKind.regular)
    ⟨"nm", "root", "", false, false, false, "", false⟩ () "d" ["g.txt"]
    rfl (by decide) (by decide)
  exact ⟨by decide, h.2.2.2.trans (by decide)⟩

end DriveUpload
